import Mathlib

/-!
Shallow embedding of the MLS client library (mls-rs snapshot) for checking
its natural-language specification. Bytes are `Nat` values; byte strings are
`List Nat`. Machine integers are modelled as `Nat` with explicit bounds where
overflow matters. Fallible operations return `Except`/`Option`.
-/

namespace MlsRs

/-- Error type of the tls_codec crate (external dependency), reduced to the
variants the embedded code produces. -/
inductive TlsError : Type where
  | EncodingError (msg : String)
  | DecodingError (msg : String)
  | EndOfStream
  deriving DecidableEq, Repr

/-! ## Byte-level codec primitives

Modelled from the spec: the `crate::tls` helper module (ByteVec, DefVec) is
not under src/; §4.1 fixes big-endian fixed-width integers and
length-prefixed variable-length data. -/

/-- Big-endian encoding of `n` into exactly `w` bytes (truncating mod 256^w,
as a fixed-width machine integer write does). -/
def natToBytesBE : Nat → Nat → List Nat
  | 0, _ => []
  | w + 1, n => natToBytesBE w (n / 256) ++ [n % 256]

/-- Big-endian interpretation of a byte string as a natural number. -/
def bytesToNatBE (l : List Nat) : Nat :=
  l.foldl (fun a b => a * 256 + b) 0

/-- Read a `w`-byte big-endian integer from the front of a stream. -/
def deN (w : Nat) (bs : List Nat) : Option (Nat × List Nat) :=
  if w ≤ bs.length then some (bytesToNatBE (bs.take w), bs.drop w) else none

/-- Serialize a byte vector with a u32 length prefix (`ByteVec`), failing on
length overflow as the tls_codec writer does. -/
def byteVecSer (d : List Nat) : Except TlsError (List Nat) :=
  if d.length < 2 ^ 32 then .ok (natToBytesBE 4 d.length ++ d)
  else .error (.EncodingError "length overflow")

/-- Deserialize a u32-length-prefixed byte vector from the front of a stream. -/
def byteVecDe (bs : List Nat) : Option (List Nat × List Nat) :=
  match deN 4 bs with
  | none => none
  | some (len, r) =>
    if len ≤ r.length then some (r.take len, r.drop len) else none

theorem bytesToNatBE_append_singleton (xs : List Nat) (b : Nat) :
    bytesToNatBE (xs ++ [b]) = bytesToNatBE xs * 256 + b := by
  simp [bytesToNatBE]

theorem natToBytesBE_length (w n : Nat) : (natToBytesBE w n).length = w := by
  induction w generalizing n with
  | zero => simp [natToBytesBE]
  | succ w ih => simp [natToBytesBE, ih]

theorem bytesToNatBE_natToBytesBE (w n : Nat) :
    bytesToNatBE (natToBytesBE w n) = n % 256 ^ w := by
  induction w generalizing n with
  | zero => simp [natToBytesBE, bytesToNatBE, Nat.mod_one]
  | succ w ih =>
    rw [natToBytesBE, bytesToNatBE_append_singleton, ih]
    rw [pow_succ, mul_comm (256 ^ w) 256, Nat.mod_mul]
    ring

theorem deN_natToBytesBE (w n : Nat) (rest : List Nat) (h : n < 256 ^ w) :
    deN w (natToBytesBE w n ++ rest) = some (n, rest) := by
  unfold deN
  rw [if_pos]
  · rw [List.take_append_of_le_length, List.drop_append_of_le_length]
    · rw [List.take_of_length_le (by rw [natToBytesBE_length]),
        List.drop_eq_nil_of_le (by rw [natToBytesBE_length]),
        bytesToNatBE_natToBytesBE, Nat.mod_eq_of_lt h]
      simp
    · rw [natToBytesBE_length]
    · rw [natToBytesBE_length]
  · rw [List.length_append, natToBytesBE_length]
    omega

theorem byteVecDe_byteVecSer (d out rest : List Nat) (h : byteVecSer d = .ok out) :
    byteVecDe (out ++ rest) = some (d, rest) := by
  unfold byteVecSer at h
  split at h
  · rename_i hlen
    cases h
    unfold byteVecDe
    rw [List.append_assoc, deN_natToBytesBE 4 d.length (d ++ rest) (by norm_num at hlen ⊢; omega)]
    simp only [List.length_append]
    rw [if_pos (by omega)]
    rw [List.take_append_of_le_length (by omega), List.drop_append_of_le_length (by omega)]
    simp
  · cases h

/-! ## Credentials (src/aws-mls-core/src/identity/credential.rs) -/

/-- Wrapper type representing a credential type identifier (a u16 on the
wire); `CredentialType(u16)` in the source. -/
structure CredentialType where
  raw : Nat
  deriving DecidableEq, Repr

/-- `CredentialType::BASIC` (= 1). -/
def CredentialType.BASIC : CredentialType := ⟨1⟩

/-- `CredentialType::X509` (= 2). -/
def CredentialType.X509 : CredentialType := ⟨2⟩

/-- `CredentialType::new`. -/
def CredentialType.new (raw_value : Nat) : CredentialType := ⟨raw_value⟩

/-- `CredentialType::raw_value`. -/
def CredentialType.raw_value (c : CredentialType) : Nat := c.raw

/-- Modelled from the spec: `BasicCredential` (defined in a file not under
src/) is an opaque identifier, serialized as a length-prefixed byte vector. -/
structure BasicCredential where
  credential : List Nat
  deriving DecidableEq, Repr

/-- Modelled from the spec: a DER certificate is an opaque byte string. -/
def DerCertificate := List Nat
  deriving DecidableEq, Repr

/-- Modelled from the spec: `CertificateChain` (defined in a file not under
src/) is an ordered sequence of DER certificates. -/
def CertificateChain := List DerCertificate
  deriving DecidableEq, Repr

/-- `CustomCredential`: a custom credential type identifier together with
opaque data. -/
structure CustomCredential where
  credential_type : CredentialType
  data : List Nat
  deriving DecidableEq, Repr

/-- `CustomCredential::new`: accepts any (credential_type, data) pair without
error. -/
def CustomCredential.new (credential_type : CredentialType) (data : List Nat) :
    CustomCredential :=
  { credential_type := credential_type, data := data }

/-- `CustomCredential::credential_type` accessor. -/
def CustomCredential.credentialTypeOf (c : CustomCredential) : CredentialType :=
  c.credential_type

/-- `Credential`: tagged union of Basic, X509 and Custom credentials. -/
inductive Credential : Type where
  | Basic (c : BasicCredential)
  | X509 (c : CertificateChain)
  | Custom (c : CustomCredential)
  deriving DecidableEq, Repr

/-- `Credential::credential_type`. -/
def Credential.credentialTypeOf : Credential → CredentialType
  | .Basic _ => CredentialType.BASIC
  | .X509 _ => CredentialType.X509
  | .Custom c => c.credential_type

/-- Modelled from the spec: serialization of `BasicCredential` (not under
src/) as a length-prefixed opaque byte string. -/
def BasicCredential.tls_serialize (c : BasicCredential) : Except TlsError (List Nat) :=
  byteVecSer c.credential

/-- Modelled from the spec: deserialization of `BasicCredential`. -/
def BasicCredential.tls_deserialize (bs : List Nat) :
    Option (BasicCredential × List Nat) :=
  (byteVecDe bs).map fun (d, r) => (⟨d⟩, r)

/-- Modelled from the spec: `DefVec` serialization of a certificate chain — a
u32 byte-length prefix followed by the serialized certificates, each itself a
length-prefixed byte string. -/
def CertificateChain.tls_serialize (c : CertificateChain) : Except TlsError (List Nat) := do
  let parts ← (c : List (List Nat)).mapM byteVecSer
  let payload := parts.flatten
  if payload.length < 2 ^ 32 then
    .ok (natToBytesBE 4 payload.length ++ payload)
  else
    .error (.EncodingError "length overflow")

/-- Fuel-indexed parse loop for the elements of a `DefVec` chunk. -/
def parseCerts (fuel : Nat) (bs : List Nat) : Option (List (List Nat)) :=
  match bs with
  | [] => some []
  | _ :: _ =>
    match fuel with
    | 0 => none
    | f + 1 =>
      (byteVecDe bs).bind fun (c, r) => (parseCerts f r).map fun cs => c :: cs

/-- Modelled from the spec: `DefVec` deserialization of a certificate chain. -/
def CertificateChain.tls_deserialize (bs : List Nat) :
    Option (CertificateChain × List Nat) :=
  match deN 4 bs with
  | none => none
  | some (len, r) =>
    if len ≤ r.length then
      (parseCerts len (r.take len)).map fun certs => ((certs : CertificateChain), r.drop len)
    else none

/-- `impl tls_codec::Serialize for Credential`: writes the u16 credential
type, then the variant payload; serializing a Custom credential whose type
raw value is ≤ 2 is an encoding error. -/
def Credential.tls_serialize (c : Credential) : Except TlsError (List Nat) := do
  if c.credentialTypeOf.raw_value < 2 ^ 16 then
    let type_bytes := natToBytesBE 2 c.credentialTypeOf.raw_value
    let inner ← match c with
      | .Basic b => b.tls_serialize
      | .X509 chain => chain.tls_serialize
      | .Custom cc =>
        if cc.credential_type.raw_value ≤ 2 then
          Except.error (.EncodingError
            "custom credential types can not be set to defined values of 0-2")
        else
          byteVecSer cc.data
    .ok (type_bytes ++ inner)
  else
    .error (.EncodingError "length overflow")

/-- `impl tls_codec::Deserialize for Credential`: reads the u16 credential
type; 1 decodes Basic, 2 decodes X509, and any other value decodes into a
`Custom` carrier holding that type. -/
def Credential.tls_deserialize (bs : List Nat) : Option (Credential × List Nat) :=
  match deN 2 bs with
  | none => none
  | some (ty, r) =>
    if ty = CredentialType.BASIC.raw_value then
      (BasicCredential.tls_deserialize r).map fun (b, r2) => (.Basic b, r2)
    else if ty = CredentialType.X509.raw_value then
      (CertificateChain.tls_deserialize r).map fun (ch, r2) => (.X509 ch, r2)
    else
      (byteVecDe r).map fun (d, r2) =>
        (.Custom { credential_type := ⟨ty⟩, data := d }, r2)

theorem byteVecSer_shape (d out : List Nat) (h : byteVecSer d = .ok out) :
    out = natToBytesBE 4 d.length ++ d ∧ d.length < 2 ^ 32 := by
  unfold byteVecSer at h
  split at h
  · cases h; exact ⟨rfl, by assumption⟩
  · cases h

theorem parseCerts_flatten (certs parts : List (List Nat))
    (h : certs.mapM byteVecSer = .ok parts) :
    ∀ fuel, parts.flatten.length ≤ fuel → parseCerts fuel parts.flatten = some certs := by
  induction certs generalizing parts with
  | nil =>
    intro fuel hf
    simp only [List.mapM_nil, pure, Except.pure] at h
    cases h
    simp [parseCerts]
  | cons c cs ih =>
    intro fuel hf
    rw [List.mapM_cons] at h
    cases hc : byteVecSer c with
    | error e => rw [hc] at h; simp [Bind.bind, Except.bind] at h
    | ok p =>
      rw [hc] at h
      cases hcs : cs.mapM byteVecSer with
      | error e => rw [hcs] at h; simp [Bind.bind, Except.bind] at h
      | ok ps =>
        rw [hcs] at h
        simp only [Bind.bind, Except.bind, pure, Except.pure] at h
        cases h
        obtain ⟨hp, hplen⟩ := byteVecSer_shape c p hc
        have hp_len : p.length = 4 + c.length := by
          rw [hp, List.length_append, natToBytesBE_length]
        have hflat : (p :: ps).flatten = p ++ ps.flatten := by simp
        rw [hflat] at hf ⊢
        have hne : p ++ ps.flatten ≠ [] := by
          intro hcontra
          have := congrArg List.length hcontra
          simp [hp_len] at this
        cases hfuel : fuel with
        | zero =>
          exfalso
          rw [List.length_append] at hf
          omega
        | succ f =>
          have hstep : parseCerts (f + 1) (p ++ ps.flatten) =
              (byteVecDe (p ++ ps.flatten)).bind
                fun (c, r) => (parseCerts f r).map fun cs => c :: cs := by
            cases hpp : p ++ ps.flatten with
            | nil => exact absurd hpp hne
            | cons x xs => simp [parseCerts]
          rw [hstep, byteVecDe_byteVecSer c p ps.flatten hc]
          have hrec : parseCerts f ps.flatten = some cs := by
            apply ih ps hcs
            rw [List.length_append] at hf
            omega
          simp [hrec]

theorem certificateChain_roundtrip (chain : CertificateChain) (out rest : List Nat)
    (h : chain.tls_serialize = .ok out) :
    CertificateChain.tls_deserialize (out ++ rest) = some (chain, rest) := by
  unfold CertificateChain.tls_serialize at h
  cases hm : List.mapM byteVecSer (chain : List (List Nat)) with
  | error e => rw [hm] at h; simp [Bind.bind, Except.bind] at h
  | ok parts =>
    rw [hm] at h
    simp only [Bind.bind, Except.bind] at h
    split at h
    · rename_i hlen
      cases h
      unfold CertificateChain.tls_deserialize
      rw [List.append_assoc,
        deN_natToBytesBE 4 parts.flatten.length (parts.flatten ++ rest)
          (by norm_num at hlen ⊢; omega)]
      simp only [List.length_append]
      rw [if_pos (by omega)]
      rw [List.take_append_of_le_length (by omega),
        List.drop_append_of_le_length (by omega)]
      rw [List.take_of_length_le (le_refl _), List.drop_eq_nil_of_le (le_refl _)]
      rw [parseCerts_flatten chain parts hm parts.flatten.length (le_refl _)]
      simp
    · cases h

theorem basicCredential_roundtrip (b : BasicCredential) (out rest : List Nat)
    (h : b.tls_serialize = .ok out) :
    BasicCredential.tls_deserialize (out ++ rest) = some (b, rest) := by
  unfold BasicCredential.tls_serialize at h
  unfold BasicCredential.tls_deserialize
  rw [byteVecDe_byteVecSer b.credential out rest h]
  simp

/-- C3: decoding the encoding of a `Credential` returns the original value
with the remaining stream untouched whenever encoding succeeds, and encoding
is deterministic (the same value always serializes to the same bytes). -/
theorem credential_roundtrip_and_deterministic :
    (∀ (c : Credential) (out rest : List Nat),
      c.tls_serialize = .ok out →
      Credential.tls_deserialize (out ++ rest) = some (c, rest)) ∧
    (∀ (c : Credential) (out1 out2 : List Nat),
      c.tls_serialize = .ok out1 → c.tls_serialize = .ok out2 → out1 = out2) := by
  constructor
  · intro c out rest h
    unfold Credential.tls_serialize at h
    split at h
    · rename_i hty
      cases c with
      | Basic b =>
        simp only [Bind.bind, Except.bind] at h
        cases hb : b.tls_serialize with
        | error e => rw [hb] at h; cases h
        | ok ib =>
          rw [hb] at h
          cases h
          unfold Credential.tls_deserialize
          rw [List.append_assoc,
            deN_natToBytesBE 2 _ _ (by simp [Credential.credentialTypeOf,
              CredentialType.raw_value, CredentialType.BASIC])]
          simp [Credential.credentialTypeOf, CredentialType.raw_value,
            CredentialType.BASIC, basicCredential_roundtrip b ib rest hb]
      | X509 chain =>
        simp only [Bind.bind, Except.bind] at h
        cases hb : chain.tls_serialize with
        | error e => rw [hb] at h; cases h
        | ok ib =>
          rw [hb] at h
          cases h
          unfold Credential.tls_deserialize
          rw [List.append_assoc,
            deN_natToBytesBE 2 _ _ (by simp [Credential.credentialTypeOf,
              CredentialType.raw_value, CredentialType.X509])]
          simp [Credential.credentialTypeOf, CredentialType.raw_value,
            CredentialType.X509, CredentialType.BASIC,
            certificateChain_roundtrip chain ib rest hb]
      | Custom cc =>
        simp only [Bind.bind, Except.bind] at h
        split at h
        · cases h
        · rename_i hgt
          cases hb : byteVecSer cc.data with
          | error e => rw [hb] at h; cases h
          | ok ib =>
            rw [hb] at h
            cases h
            have hty' : cc.credential_type.raw_value < 2 ^ 16 := by
              simpa [Credential.credentialTypeOf] using hty
            have hne1 : cc.credential_type.raw ≠ 1 := by
              simp only [CredentialType.raw_value] at hgt; omega
            have hne2 : cc.credential_type.raw ≠ 2 := by
              simp only [CredentialType.raw_value] at hgt; omega
            unfold Credential.tls_deserialize
            rw [List.append_assoc,
              deN_natToBytesBE 2 _ _ (by
                simpa [Credential.credentialTypeOf, CredentialType.raw_value]
                  using hty')]
            simp [Credential.credentialTypeOf, CredentialType.raw_value,
              CredentialType.BASIC, CredentialType.X509, hne1, hne2,
              byteVecDe_byteVecSer cc.data ib rest hb]
    · cases h
  · intro c out1 out2 h1 h2
    rw [h1] at h2
    cases h2
    rfl

/-- Witness for C3 at a concrete Basic credential and a concrete Custom
credential encoding. -/
theorem credential_roundtrip_witness :
    Credential.tls_deserialize ([0, 1, 0, 0, 0, 1, 7] ++ [9]) =
      some (.Basic ⟨[7]⟩, [9]) :=
  credential_roundtrip_and_deterministic.1 (.Basic ⟨[7]⟩) [0, 1, 0, 0, 0, 1, 7] [9]
    (by rfl)

/-- C6: the encoding asymmetry of custom credentials — serializing
`Credential::Custom` with a type raw value ≤ 2 always fails with an encoding
error, while the non-encoding path permits such values: `CustomCredential::new`
accepts any (type, data) pair, and deserializing a credential whose u16 type
is neither 1 nor 2 yields a `Custom` carrier holding that type. -/
theorem custom_credential_encoding_asymmetry :
    (∀ cc : CustomCredential, cc.credential_type.raw_value ≤ 2 →
      Credential.tls_serialize (.Custom cc) = .error (.EncodingError
        "custom credential types can not be set to defined values of 0-2")) ∧
    (∀ (t : CredentialType) (d : List Nat),
      (CustomCredential.new t d).credential_type = t ∧
      (CustomCredential.new t d).data = d) ∧
    (∀ (ty : Nat) (d bs rest : List Nat), ty < 2 ^ 16 → ty ≠ 1 → ty ≠ 2 →
      byteVecSer d = .ok bs →
      Credential.tls_deserialize (natToBytesBE 2 ty ++ bs ++ rest) =
        some (.Custom { credential_type := ⟨ty⟩, data := d }, rest)) := by
  refine ⟨?_, ?_, ?_⟩
  · intro cc hle
    unfold Credential.tls_serialize
    rw [if_pos (by
      simp only [Credential.credentialTypeOf, CredentialType.raw_value] at hle ⊢
      omega)]
    simp only [Bind.bind, Except.bind]
    rw [if_pos hle]
  · intro t d
    exact ⟨rfl, rfl⟩
  · intro ty d bs rest hty h1 h2 hser
    unfold Credential.tls_deserialize
    rw [List.append_assoc, deN_natToBytesBE 2 ty (bs ++ rest) (by norm_num; omega)]
    simp [CredentialType.raw_value, CredentialType.BASIC, CredentialType.X509,
      h1, h2, byteVecDe_byteVecSer d bs rest hser]

/-- Witness for C6 at concrete values: a Custom credential with type 2 fails
to encode, `new` carries type 5 through, and bytes with type tag 5 decode to
a Custom credential. -/
theorem custom_credential_asymmetry_witness :
    Credential.tls_serialize (.Custom ⟨⟨2⟩, [3]⟩) = .error (.EncodingError
        "custom credential types can not be set to defined values of 0-2") ∧
    (CustomCredential.new ⟨5⟩ [3]).credential_type = ⟨5⟩ ∧
    Credential.tls_deserialize ([0, 5] ++ [0, 0, 0, 1, 3] ++ [8]) =
      some (.Custom { credential_type := ⟨5⟩, data := [3] }, [8]) :=
  ⟨custom_credential_encoding_asymmetry.1 ⟨⟨2⟩, [3]⟩ (by decide),
   (custom_credential_encoding_asymmetry.2.1 ⟨5⟩ [3]).1,
   custom_credential_encoding_asymmetry.2.2 5 [3] [0, 0, 0, 1, 3] [8]
     (by norm_num) (by decide) (by decide) (by rfl)⟩

/-! ## Message framing (src/aws-mls/src/group/framing.rs)

`Proposal`, `Commit`, `MLSContentAuthData` and `MembershipTag` are defined in
files not under src/; the framing code only delegates to their codecs, so
they appear here as type parameters together with their decoders. -/

/-- `ContentType`: discriminant of the three content kinds. -/
inductive ContentType : Type where
  | Application
  | Proposal
  | Commit
  deriving DecidableEq, Repr

/-- `ApplicationData`: opaque application payload, a length-prefixed byte
vector on the wire. -/
structure ApplicationData where
  data : List Nat
  deriving DecidableEq, Repr

/-- `Content`: tagged union of application data, a proposal, or a commit;
proposals and commits are parameters (their definitions are not under src/). -/
inductive Content (P Cm : Type) : Type where
  | Application (a : ApplicationData)
  | Proposal (p : P)
  | Commit (c : Cm)

/-- `Content::content_type` / `From<&Content> for ContentType`. -/
def Content.content_type {P Cm : Type} : Content P Cm → ContentType
  | .Application _ => .Application
  | .Proposal _ => .Proposal
  | .Commit _ => .Commit

/-- `Sender`: who authored a frame; discriminants 1-4 on the wire, the first
two carrying a u32 index. -/
inductive Sender : Type where
  | Member (i : Nat)
  | External (i : Nat)
  | NewMemberCommit
  | NewMemberProposal
  deriving DecidableEq, Repr

/-- Derived deserialization of `Sender`: a u8 discriminant (1-4), then a u32
index for Member and External. -/
def Sender.tls_deserialize (bs : List Nat) : Option (Sender × List Nat) :=
  match deN 1 bs with
  | none => none
  | some (d, r) =>
    if d = 1 then (deN 4 r).map fun (i, r2) => (.Member i, r2)
    else if d = 2 then (deN 4 r).map fun (i, r2) => (.External i, r2)
    else if d = 3 then some (.NewMemberCommit, r)
    else if d = 4 then some (.NewMemberProposal, r)
    else none

/-- A streaming decoder for a parameter type. -/
def Decoder (α : Type) : Type := List Nat → Option (α × List Nat)

/-- Decoding of `Content` (derived): u8 discriminant 1/2/3, then the payload
decoded by the matching codec. -/
def Content.tls_deserialize {P Cm : Type} (pDe : Decoder P) (cmDe : Decoder Cm) :
    Decoder (Content P Cm) := fun bs =>
  match deN 1 bs with
  | none => none
  | some (d, r) =>
    if d = 1 then (byteVecDe r).map fun (a, r2) => (.Application ⟨a⟩, r2)
    else if d = 2 then (pDe r).map fun (p, r2) => (.Proposal p, r2)
    else if d = 3 then (cmDe r).map fun (c, r2) => (.Commit c, r2)
    else none

/-- `MLSCiphertextContent`: decrypted content of a private message, with its
authentication data and trailing padding. -/
structure MLSCiphertextContent (P Cm Auth : Type) : Type where
  content : Content P Cm
  auth : Auth
  padding : List Nat

/-- `MLSCiphertextContent::tls_deserialize`: decodes the content according to
the given content type, then the auth data, then takes every remaining byte
as padding and rejects the frame if any padding byte is non-zero. -/
def MLSCiphertextContent.tls_deserialize {P Cm Auth : Type}
    (pDe : Decoder P) (cmDe : Decoder Cm) (authDe : ContentType → Decoder Auth)
    (bs : List Nat) (content_type : ContentType) :
    Except TlsError (MLSCiphertextContent P Cm Auth) := do
  let (content, r1) ←
    match content_type with
    | .Application =>
      match byteVecDe bs with
      | some (a, r) => Except.ok ((Content.Application ⟨a⟩ : Content P Cm), r)
      | none => Except.error TlsError.EndOfStream
    | .Proposal =>
      match pDe bs with
      | some (p, r) => Except.ok ((Content.Proposal p : Content P Cm), r)
      | none => Except.error TlsError.EndOfStream
    | .Commit =>
      match cmDe bs with
      | some (c, r) => Except.ok ((Content.Commit c : Content P Cm), r)
      | none => Except.error TlsError.EndOfStream
  let (auth, r2) ←
    match authDe content.content_type r1 with
    | some (a, r) => Except.ok (a, r)
    | none => Except.error TlsError.EndOfStream
  let padding := r2
  if padding.any fun i => i ≠ 0 then
    Except.error (.DecodingError "non-zero padding bytes discovered")
  else
    Except.ok { content := content, auth := auth, padding := padding }

/-- C2: deserializing an `MLSCiphertextContent` whose trailing padding
contains any non-zero byte fails with the non-zero-padding decode error, and
whenever every trailing padding byte is zero the frame is accepted with the
decoded content, auth data, and padding. Stated for the commit content type;
the padding check is shared by all three content kinds. -/
theorem ciphertext_content_padding :
    ∀ {P Cm Auth : Type} (pDe : Decoder P) (cmDe : Decoder Cm)
      (authDe : ContentType → Decoder Auth) (bs r1 r2 : List Nat)
      (c : Cm) (a : Auth),
      cmDe bs = some (c, r1) →
      authDe (Content.Commit c : Content P Cm).content_type r1 = some (a, r2) →
      ((∃ b ∈ r2, b ≠ 0) →
        MLSCiphertextContent.tls_deserialize pDe cmDe authDe bs .Commit =
          .error (.DecodingError "non-zero padding bytes discovered")) ∧
      ((∀ b ∈ r2, b = 0) →
        MLSCiphertextContent.tls_deserialize pDe cmDe authDe bs .Commit =
          .ok { content := .Commit c, auth := a, padding := r2 }) := by
  intro P Cm Auth pDe cmDe authDe bs r1 r2 c a hc ha
  constructor
  · intro hnz
    have hcond : (r2.any fun i => decide (i ≠ 0)) = true := by
      simp only [List.any_eq_true, decide_eq_true_eq]
      exact hnz
    unfold MLSCiphertextContent.tls_deserialize
    rw [hc]
    simp only [Bind.bind, Except.bind]
    rw [ha]
    simp [hcond]
    exact hnz
  · intro hz
    have hcond : (r2.any fun i => decide (i ≠ 0)) = false := by
      simp only [List.any_eq_false, decide_eq_true_eq, not_not]
      exact hz
    unfold MLSCiphertextContent.tls_deserialize
    rw [hc]
    simp only [Bind.bind, Except.bind]
    rw [ha]
    simp [hcond]
    exact hz

/-- Witness for C2: a one-byte commit payload followed by a padding byte 1 is
rejected, and the same frame with zero padding is accepted. -/
theorem ciphertext_content_padding_witness :
    (∃ b ∈ [1], b ≠ 0) ∧
    MLSCiphertextContent.tls_deserialize
      (fun bs => some (((), bs) : Unit × List Nat))
      (fun bs => some (bs.take 1, bs.drop 1))
      (fun _ bs => some (((), bs) : Unit × List Nat)) [7, 1] .Commit =
      .error (.DecodingError "non-zero padding bytes discovered") :=
  ⟨⟨1, by decide, by decide⟩,
   (ciphertext_content_padding (fun bs => some (((), bs) : Unit × List Nat))
      (fun bs => some (bs.take 1, bs.drop 1))
      (fun _ bs => some (((), bs) : Unit × List Nat))
      [7, 1] [1] [1] [7] () (by rfl) (by rfl)).1 ⟨1, by decide, by decide⟩⟩

/-- `MLSContent`: the framed content of a public message. -/
structure MLSContent (P Cm : Type) : Type where
  group_id : List Nat
  epoch : Nat
  sender : Sender
  authenticated_data : List Nat
  content : Content P Cm

/-- `MLSContent::content_type`. -/
def MLSContent.content_type {P Cm : Type} (c : MLSContent P Cm) : ContentType :=
  c.content.content_type

/-- Derived decoding of `MLSContent`: group id, epoch (u64), sender,
authenticated data, then the content union. -/
def MLSContent.tls_deserialize {P Cm : Type} (pDe : Decoder P) (cmDe : Decoder Cm) :
    Decoder (MLSContent P Cm) := fun bs =>
  match byteVecDe bs with
  | none => none
  | some (gid, r1) =>
    match deN 8 r1 with
    | none => none
    | some (ep, r2) =>
      match Sender.tls_deserialize r2 with
      | none => none
      | some (snd, r3) =>
        match byteVecDe r3 with
        | none => none
        | some (ad, r4) =>
          match Content.tls_deserialize pDe cmDe r4 with
          | none => none
          | some (cnt, r5) =>
            some ({ group_id := gid, epoch := ep, sender := snd,
                    authenticated_data := ad, content := cnt }, r5)

/-- `MLSPlaintext`: framed content with its authentication data and an
optional membership tag. -/
structure MLSPlaintext (P Cm Auth Tag : Type) : Type where
  content : MLSContent P Cm
  auth : Auth
  membership_tag : Option Tag

/-- `impl Deserialize for MLSPlaintext`: decodes the content, then the auth
data for that content type, then a membership tag exactly when the decoded
sender is `Sender::Member`. -/
def MLSPlaintext.tls_deserialize {P Cm Auth Tag : Type}
    (pDe : Decoder P) (cmDe : Decoder Cm) (authDe : ContentType → Decoder Auth)
    (tagDe : Decoder Tag) : Decoder (MLSPlaintext P Cm Auth Tag) := fun bs =>
  match MLSContent.tls_deserialize pDe cmDe bs with
  | none => none
  | some (content, r1) =>
    match authDe content.content_type r1 with
    | none => none
    | some (auth, r2) =>
      match content.sender with
      | .Member _ =>
        match tagDe r2 with
        | none => none
        | some (tag, r3) =>
          some ({ content := content, auth := auth, membership_tag := some tag }, r3)
      | _ => some ({ content := content, auth := auth, membership_tag := none }, r2)

/-- `impl Serialize for MLSPlaintext`: writes the content, the auth data,
and then the membership tag only when one is present. -/
def MLSPlaintext.tls_serialize {P Cm Auth Tag : Type}
    (contentSer : MLSContent P Cm → Except TlsError (List Nat))
    (authSer : Auth → Except TlsError (List Nat))
    (tagSer : Tag → Except TlsError (List Nat))
    (p : MLSPlaintext P Cm Auth Tag) : Except TlsError (List Nat) := do
  let cbytes ← contentSer p.content
  let abytes ← authSer p.auth
  let tbytes ← match p.membership_tag with
    | some tag => tagSer tag
    | none => Except.ok []
  .ok (cbytes ++ abytes ++ tbytes)

/-- C8: for every byte stream that decodes into an `MLSPlaintext`, the
membership tag is present exactly when the decoded sender is
`Sender::Member`; and serialization writes no tag bytes when the tag is
absent, so encoding preserves the presence rule. -/
theorem plaintext_membership_tag_presence :
    (∀ {P Cm Auth Tag : Type} (pDe : Decoder P) (cmDe : Decoder Cm)
      (authDe : ContentType → Decoder Auth) (tagDe : Decoder Tag)
      (bs rest : List Nat) (p : MLSPlaintext P Cm Auth Tag),
      MLSPlaintext.tls_deserialize pDe cmDe authDe tagDe bs = some (p, rest) →
      (p.membership_tag.isSome = true ↔ ∃ i, p.content.sender = .Member i)) ∧
    (∀ {P Cm Auth Tag : Type}
      (contentSer : MLSContent P Cm → Except TlsError (List Nat))
      (authSer : Auth → Except TlsError (List Nat))
      (tagSer : Tag → Except TlsError (List Nat))
      (p : MLSPlaintext P Cm Auth Tag) (cbytes abytes : List Nat),
      p.membership_tag = none →
      contentSer p.content = .ok cbytes → authSer p.auth = .ok abytes →
      MLSPlaintext.tls_serialize contentSer authSer tagSer p =
        .ok (cbytes ++ abytes)) := by
  constructor
  · intro P Cm Auth Tag pDe cmDe authDe tagDe bs rest p h
    unfold MLSPlaintext.tls_deserialize at h
    cases hcontent : MLSContent.tls_deserialize pDe cmDe bs with
    | none => rw [hcontent] at h; cases h
    | some v =>
      obtain ⟨content, r1⟩ := v
      rw [hcontent] at h
      simp only [] at h
      cases hauth : authDe content.content_type r1 with
      | none => rw [hauth] at h; cases h
      | some w =>
        obtain ⟨auth, r2⟩ := w
        rw [hauth] at h
        simp only [] at h
        cases hsnd : content.sender with
        | Member i =>
          rw [hsnd] at h
          cases htag : tagDe r2 with
          | none => rw [htag] at h; cases h
          | some t =>
            obtain ⟨tag, r3⟩ := t
            rw [htag] at h
            simp only [] at h
            cases h
            simp [hsnd]
        | External i =>
          rw [hsnd] at h
          simp only [] at h
          cases h
          simp [hsnd]
        | NewMemberCommit =>
          rw [hsnd] at h
          simp only [] at h
          cases h
          simp [hsnd]
        | NewMemberProposal =>
          rw [hsnd] at h
          simp only [] at h
          cases h
          simp [hsnd]
  · intro P Cm Auth Tag contentSer authSer tagSer p cbytes abytes hnone hcs has
    unfold MLSPlaintext.tls_serialize
    rw [hcs]
    simp only [Bind.bind, Except.bind]
    rw [has, hnone]
    simp

/-- Witness for C8 at a concrete frame: an external-sender frame decodes with
no membership tag, and a member-sender plaintext with no tag serializes to
exactly its content and auth bytes. -/
theorem plaintext_membership_tag_witness :
    ((MLSPlaintext.mk
        (MLSContent.mk [] 0 (.External 3) []
          (.Application ⟨[]⟩) : MLSContent Unit Unit) ()
        (none : Option Unit)).membership_tag.isSome = true ↔
      ∃ i, (MLSContent.mk [] 0 (.External 3) []
          (.Application ⟨[]⟩) : MLSContent Unit Unit).sender = .Member i) ∧
    MLSPlaintext.tls_serialize (fun _ => .ok [1]) (fun _ => .ok [2])
      (fun (_ : Unit) => .ok [9])
      (MLSPlaintext.mk
        (MLSContent.mk [] 0 (.External 3) []
          (.Application ⟨[]⟩) : MLSContent Unit Unit) ()
        (none : Option Unit)) = .ok ([1] ++ [2]) :=
  ⟨plaintext_membership_tag_presence.1
    (fun bs => some (((), bs) : Unit × List Nat))
    (fun bs => some (((), bs) : Unit × List Nat))
    (fun _ bs => some (((), bs) : Unit × List Nat))
    (fun bs => some (((), bs) : Unit × List Nat))
    ([0, 0, 0, 0] ++ [0, 0, 0, 0, 0, 0, 0, 0] ++ [2, 0, 0, 0, 3] ++
      [0, 0, 0, 0] ++ [1, 0, 0, 0, 0]) [] _ (by rfl),
   plaintext_membership_tag_presence.2 (fun _ => .ok [1]) (fun _ => .ok [2])
    (fun _ => .ok [9]) _ [1] [2] rfl rfl rfl⟩

/-! ## Key package validation (src/aws-mls/src/key_package/validator.rs)

Signature verification, KEM key format validation and leaf-node validation
are delegated to the `CipherSuiteProvider` / `LeafNodeValidator`
collaborators (not under src/); they appear as function-valued fields. -/

/-- `SigningIdentity` (src/aws-mls-core/src/identity/signing_identity.rs):
a signature public key together with a credential. -/
structure SigningIdentity where
  signature_key : List Nat
  credential : Credential
  deriving DecidableEq, Repr

/-- `Lifetime`: validity window of a key package leaf (not under src/;
modelled from the spec's `KeyPackage(lifetime)` leaf-node source). -/
structure Lifetime where
  not_before : Nat
  not_after : Nat
  deriving DecidableEq, Repr

/-- `LeafNodeSource`: where a tree leaf came from. -/
inductive LeafNodeSource : Type where
  | KeyPackage (lifetime : Lifetime)
  | Update
  | Commit (parent_hash : List Nat)
  deriving DecidableEq, Repr

/-- `LeafNode` restricted to the fields the key-package validator reads:
HPKE public key, signing identity, and leaf-node source. -/
structure LeafNode where
  public_key : List Nat
  signing_identity : SigningIdentity
  leaf_node_source : LeafNodeSource
  deriving DecidableEq, Repr

/-- `KeyPackage` restricted to the fields the validator reads; `version` and
`cipher_suite` are the wire-level u16 identifiers. -/
structure KeyPackage where
  version : Nat
  cipher_suite : Nat
  hpke_init_key : List Nat
  leaf_node : LeafNode
  signature : List Nat
  deriving DecidableEq, Repr

/-- `KeyPackageValidationError`, reduced to the variants reachable from
`check_if_valid`. -/
inductive KeyPackageValidationError : Type where
  | SignatureError
  | LeafNodeValidationError
  | MissingKeyLifetime
  | InvalidProtocolVersion (found expected : Nat)
  | InvalidCipherSuite (found expected : Nat)
  | InvalidInitKey
  | InitLeafKeyEquality
  deriving DecidableEq, Repr

/-- `KeyPackageValidationOutput`. -/
structure KeyPackageValidationOutput where
  expiration_timestamp : Nat
  deriving DecidableEq, Repr

/-- `KeyPackageValidator`: the protocol version and cipher suite being
enforced, together with the injected collaborator behaviors — signature
verification and KEM public-key format validation from the
`CipherSuiteProvider`, and the `LeafNodeValidator` check. -/
structure KeyPackageValidator where
  protocol_version : Nat
  cipher_suite : Nat
  verify : KeyPackage → List Nat → Bool
  kem_public_key_validate : List Nat → Bool
  leaf_node_check : LeafNode → Bool

/-- `KeyPackageValidator::check_signature`: verify the key package signature
under the public key in the contained leaf node's signing identity. -/
def KeyPackageValidator.check_signature (v : KeyPackageValidator)
    (package : KeyPackage) : Except KeyPackageValidationError Unit :=
  if v.verify package package.leaf_node.signing_identity.signature_key then
    .ok ()
  else
    .error .SignatureError

/-- `KeyPackageValidator::validate_properties`: signature first, then
protocol version, cipher suite, init-key format, and the init-key ≠ leaf-key
invariant, in source order. -/
def KeyPackageValidator.validate_properties (v : KeyPackageValidator)
    (package : KeyPackage) : Except KeyPackageValidationError Unit := do
  let _ ← v.check_signature package
  if package.version ≠ v.protocol_version then
    Except.error (.InvalidProtocolVersion package.version v.protocol_version)
  else if package.cipher_suite ≠ v.cipher_suite then
    Except.error (.InvalidCipherSuite package.cipher_suite v.cipher_suite)
  else if ¬ v.kem_public_key_validate package.hpke_init_key then
    Except.error .InvalidInitKey
  else if package.hpke_init_key = package.leaf_node.public_key then
    Except.error .InitLeafKeyEquality
  else
    Except.ok ()

/-- `KeyPackageValidator::check_if_valid`: property validation, then the
leaf-node validator, then the leaf-node source must be
`KeyPackage(lifetime)`, whose `not_after` becomes the expiration output. -/
def KeyPackageValidator.check_if_valid (v : KeyPackageValidator)
    (package : KeyPackage) :
    Except KeyPackageValidationError KeyPackageValidationOutput := do
  let _ ← v.validate_properties package
  let _ ← if v.leaf_node_check package.leaf_node then Except.ok ()
          else Except.error KeyPackageValidationError.LeafNodeValidationError
  match package.leaf_node.leaf_node_source with
  | .KeyPackage lifetime =>
    Except.ok { expiration_timestamp := lifetime.not_after }
  | _ => Except.error .MissingKeyLifetime

/-- C4: a key package whose HPKE init key equals its leaf node's public key,
and which passes the preceding signature, protocol-version, cipher-suite,
and init-key-format checks, is rejected with `InitLeafKeyEquality`; and when
the two keys differ `check_if_valid` never returns that error. -/
theorem keypackage_init_leaf_key_equality :
    (∀ (v : KeyPackageValidator) (p : KeyPackage),
      v.verify p p.leaf_node.signing_identity.signature_key = true →
      p.version = v.protocol_version →
      p.cipher_suite = v.cipher_suite →
      v.kem_public_key_validate p.hpke_init_key = true →
      p.hpke_init_key = p.leaf_node.public_key →
      v.check_if_valid p = .error .InitLeafKeyEquality) ∧
    (∀ (v : KeyPackageValidator) (p : KeyPackage),
      p.hpke_init_key ≠ p.leaf_node.public_key →
      v.check_if_valid p ≠ .error .InitLeafKeyEquality) := by
  constructor
  · intro v p hsig hver hcs hkem heq
    unfold KeyPackageValidator.check_if_valid
    unfold KeyPackageValidator.validate_properties
    unfold KeyPackageValidator.check_signature
    rw [if_pos hsig]
    rw [heq] at hkem
    simp [hver, hcs, hkem, heq, Bind.bind, Except.bind]
  · intro v p hne
    unfold KeyPackageValidator.check_if_valid
    unfold KeyPackageValidator.validate_properties
    unfold KeyPackageValidator.check_signature
    by_cases hsig : v.verify p p.leaf_node.signing_identity.signature_key
    · rw [if_pos hsig]
      by_cases hver : p.version = v.protocol_version
      · by_cases hcs : p.cipher_suite = v.cipher_suite
        · by_cases hkem : v.kem_public_key_validate p.hpke_init_key
          · simp only [Bind.bind, Except.bind, hver, hcs, hkem, hne,
              if_neg, if_pos, not_true, not_false_iff, ite_false, ite_true]
            simp [hver, hcs, hkem, hne]
            by_cases hleaf : v.leaf_node_check p.leaf_node
            · simp [hleaf]
              cases p.leaf_node.leaf_node_source <;> simp
            · simp [hleaf]
          · simp [Bind.bind, Except.bind, hver, hcs, hkem]
        · simp [Bind.bind, Except.bind, hver, hcs]
      · simp [Bind.bind, Except.bind, hver]
    · rw [if_neg hsig]
      simp [Bind.bind, Except.bind]

/-- Witness for C4 at a concrete validator (all collaborator checks accept)
and a key package whose init key equals / differs from its leaf key. -/
theorem keypackage_init_leaf_key_equality_witness :
    (KeyPackageValidator.mk 1 1 (fun _ _ => true) (fun _ => true)
        (fun _ => true)).check_if_valid
      (KeyPackage.mk 1 1 [5]
        (LeafNode.mk [5] (SigningIdentity.mk [] (.Basic ⟨[]⟩))
          (.KeyPackage ⟨0, 9⟩)) []) = .error .InitLeafKeyEquality ∧
    (KeyPackageValidator.mk 1 1 (fun _ _ => true) (fun _ => true)
        (fun _ => true)).check_if_valid
      (KeyPackage.mk 1 1 [6]
        (LeafNode.mk [5] (SigningIdentity.mk [] (.Basic ⟨[]⟩))
          (.KeyPackage ⟨0, 9⟩)) []) ≠ .error .InitLeafKeyEquality :=
  ⟨keypackage_init_leaf_key_equality.1 _ _ rfl rfl rfl rfl rfl,
   keypackage_init_leaf_key_equality.2 _ _ (by decide)⟩

/-- C5: a key package whose signature does not verify under
`leaf_node.signing_identity.signature_key` is rejected with the signature
error, before any other property check can report a different error — the
conclusion holds with no assumption on the remaining fields. -/
theorem keypackage_invalid_signature :
    ∀ (v : KeyPackageValidator) (p : KeyPackage),
      v.verify p p.leaf_node.signing_identity.signature_key = false →
      v.check_if_valid p = .error .SignatureError := by
  intro v p hsig
  unfold KeyPackageValidator.check_if_valid
  unfold KeyPackageValidator.validate_properties
  unfold KeyPackageValidator.check_signature
  rw [hsig]
  simp [Bind.bind, Except.bind]

/-- Witness for C5: a validator whose signature verification rejects
everything fails a concrete key package with the signature error, even
though every other field is individually invalid too. -/
theorem keypackage_invalid_signature_witness :
    (KeyPackageValidator.mk 1 1 (fun _ _ => false) (fun _ => false)
        (fun _ => false)).check_if_valid
      (KeyPackage.mk 2 3 [5]
        (LeafNode.mk [5] (SigningIdentity.mk [] (.Basic ⟨[]⟩)) .Update) []) =
      .error .SignatureError :=
  keypackage_invalid_signature _ _ rfl

/-! ## Membership tag (src/src/membership_tag.rs)

The to-be-MACed structure's inner `MLSPlaintextTBS`, the bincode
serialization, and the HMAC primitive live in files or crates not under
src/; they appear as type and function parameters. -/

/-- `MembershipTagError`: HMAC or serialization failure. -/
inductive MembershipTagError : Type where
  | HMacError
  | SerializationError
  deriving DecidableEq, Repr

/-- `EpochKeySchedule` restricted to the fields the membership tag reads:
the membership key and the cipher suite's hash function identifier. -/
structure EpochKeySchedule where
  membership_key : List Nat
  hash_function : Nat
  deriving DecidableEq, Repr

/-- `MLSPlaintextTBM`: the to-be-MACed structure — the to-be-signed content,
the message signature, and the optional confirmation tag. -/
structure MLSPlaintextTBM (TBSty Sig CTag : Type) : Type where
  tbs : TBSty
  signature : Sig
  confirmation_tag : Option CTag

/-- `MLSPlaintextTBM::from_plaintext`, parameterized by the missing
`MLSPlaintextTBS::from_plaintext` and the plaintext's field accessors. -/
def MLSPlaintextTBM.from_plaintext {PT GC TBSty Sig CTag : Type}
    (tbsFrom : PT → GC → TBSty) (sigOf : PT → Sig) (ctagOf : PT → Option CTag)
    (plaintext : PT) (group_context : GC) : MLSPlaintextTBM TBSty Sig CTag :=
  { tbs := tbsFrom plaintext group_context
    signature := sigOf plaintext
    confirmation_tag := ctagOf plaintext }

/-- `MembershipTag`: an HMAC tag over the TBM structure. -/
structure MembershipTag where
  tag : List Nat
  deriving DecidableEq, Repr

/-- `MembershipTag::create`: serialize the TBM with bincode, build an HMAC
key from the key schedule's membership key and hash function, and sign the
serialized bytes. `bincodeSer`, `keyNew` and `hmacSign` are the external
bincode and ferriscrypt operations. -/
def MembershipTag.create {PT GC TBSty Sig CTag K : Type}
    (bincodeSer : MLSPlaintextTBM TBSty Sig CTag →
      Except MembershipTagError (List Nat))
    (keyNew : List Nat → Nat → Except MembershipTagError K)
    (hmacSign : K → List Nat → Except MembershipTagError (List Nat))
    (tbsFrom : PT → GC → TBSty) (sigOf : PT → Sig) (ctagOf : PT → Option CTag)
    (plaintext : PT) (group_context : GC) (key_schedule : EpochKeySchedule) :
    Except MembershipTagError MembershipTag := do
  let plaintext_tbm :=
    MLSPlaintextTBM.from_plaintext tbsFrom sigOf ctagOf plaintext group_context
  let serialized_tbm ← bincodeSer plaintext_tbm
  let hmac_key ← keyNew key_schedule.membership_key key_schedule.hash_function
  let tag ← hmacSign hmac_key serialized_tbm
  .ok ⟨tag⟩

/-- `MembershipTag::matches`: recompute the tag locally with `create` over
the same plaintext, context, and key schedule, and compare it with the
received tag. -/
def MembershipTag.matches {PT GC TBSty Sig CTag K : Type}
    (received : MembershipTag)
    (bincodeSer : MLSPlaintextTBM TBSty Sig CTag →
      Except MembershipTagError (List Nat))
    (keyNew : List Nat → Nat → Except MembershipTagError K)
    (hmacSign : K → List Nat → Except MembershipTagError (List Nat))
    (tbsFrom : PT → GC → TBSty) (sigOf : PT → Sig) (ctagOf : PT → Option CTag)
    (plaintext : PT) (group_context : GC) (key_schedule : EpochKeySchedule) :
    Except MembershipTagError Bool := do
  let local_tag ← MembershipTag.create bincodeSer keyNew hmacSign tbsFrom sigOf
    ctagOf plaintext group_context key_schedule
  .ok (decide (local_tag = received))

/-- C9: membership-tag verification is recompute-and-compare — whenever
`create` succeeds on a plaintext, context, and key schedule, `matches` on
the created tag with the same inputs returns `Ok(true)`, and on any received
tag it returns `Ok` of whether the locally recomputed tag equals it, so it
returns `Ok(false)` exactly when the recomputed tag differs. -/
theorem membership_tag_recompute_and_compare :
    ∀ {PT GC TBSty Sig CTag K : Type}
      (bincodeSer : MLSPlaintextTBM TBSty Sig CTag →
        Except MembershipTagError (List Nat))
      (keyNew : List Nat → Nat → Except MembershipTagError K)
      (hmacSign : K → List Nat → Except MembershipTagError (List Nat))
      (tbsFrom : PT → GC → TBSty) (sigOf : PT → Sig) (ctagOf : PT → Option CTag)
      (plaintext : PT) (group_context : GC) (key_schedule : EpochKeySchedule)
      (t : MembershipTag),
      MembershipTag.create bincodeSer keyNew hmacSign tbsFrom sigOf ctagOf
        plaintext group_context key_schedule = .ok t →
      MembershipTag.matches t bincodeSer keyNew hmacSign tbsFrom sigOf ctagOf
        plaintext group_context key_schedule = .ok true ∧
      ∀ received : MembershipTag,
        MembershipTag.matches received bincodeSer keyNew hmacSign tbsFrom sigOf
          ctagOf plaintext group_context key_schedule =
          .ok (decide (t = received)) := by
  intro PT GC TBSty Sig CTag K bincodeSer keyNew hmacSign tbsFrom sigOf ctagOf
    plaintext group_context key_schedule t hcreate
  constructor
  · unfold MembershipTag.matches
    rw [hcreate]
    simp [Bind.bind, Except.bind]
  · intro received
    unfold MembershipTag.matches
    rw [hcreate]
    simp [Bind.bind, Except.bind]

/-- Witness for C9 with concrete bincode and HMAC stand-ins: the created tag
matches itself. -/
theorem membership_tag_recompute_witness :
    MembershipTag.matches ⟨[0, 7]⟩
      (fun (_ : MLSPlaintextTBM Unit Unit Unit) => .ok [7])
      (fun (k : List Nat) (_ : Nat) => .ok k)
      (fun (k s : List Nat) => .ok (k ++ s))
      (fun (_ _ : Unit) => ()) (fun (_ : Unit) => ())
      (fun (_ : Unit) => (none : Option Unit)) () ()
      ⟨[0], 1⟩ = .ok true :=
  (membership_tag_recompute_and_compare
    (fun (_ : MLSPlaintextTBM Unit Unit Unit) => .ok [7])
    (fun (k : List Nat) (_ : Nat) => .ok k)
    (fun (k s : List Nat) => .ok (k ++ s))
    (fun (_ _ : Unit) => ()) (fun (_ : Unit) => ())
    (fun (_ : Unit) => (none : Option Unit)) () () ⟨[0], 1⟩
    ⟨[0, 7]⟩ (by rfl)).1

/-! ## X.509 identity provider (src/aws-mls-identity-x509/src/provider.rs)

The chain validator is an injected `X509CredentialValidator`; the
`credential_to_chain` helper lives in a util module not under src/. -/

/-- `X509IdentityError`, reduced to the variants `validate` produces. -/
inductive X509IdentityError : Type where
  | ChainValidationError (msg : String)
  | SignatureKeyMismatch
  | InvalidCredentialType
  deriving DecidableEq, Repr

/-- Modelled from the spec: `credential_to_chain` (util module not under
src/) — only X509 credentials are supported by this provider, every other
credential kind is rejected. -/
def credential_to_chain : Credential → Except X509IdentityError CertificateChain
  | .X509 chain => .ok chain
  | _ => .error .InvalidCredentialType

/-- `X509IdentityProvider` restricted to the validator sub-component that
`validate` consults; the injected `validate_chain` returns the chain's leaf
public key or a chain-validation failure. -/
structure X509IdentityProvider where
  validate_chain : CertificateChain → Option Nat →
    Except String (List Nat)

/-- `X509IdentityProvider::validate`: convert the credential to a chain,
run the underlying chain validator (reporting failure as
`ChainValidationError`), and require the validated chain's leaf public key
to equal the signing identity's signature key. -/
def X509IdentityProvider.validate (p : X509IdentityProvider)
    (signing_identity : SigningIdentity) (timestamp : Option Nat) :
    Except X509IdentityError Unit := do
  let chain ← credential_to_chain signing_identity.credential
  let leaf_public_key ←
    match p.validate_chain chain timestamp with
    | .ok pk => Except.ok pk
    | .error e => Except.error (X509IdentityError.ChainValidationError e)
  if leaf_public_key ≠ signing_identity.signature_key then
    Except.error .SignatureKeyMismatch
  else
    Except.ok ()

/-- C10: for a signing identity carrying an X509 chain, `validate` returns
`SignatureKeyMismatch` when the chain validator's key differs from the
identity's signature key, `Ok(())` when it is equal, and reports any chain
validation failure as `ChainValidationError`. -/
theorem x509_validate_key_equality :
    ∀ (p : X509IdentityProvider) (si : SigningIdentity)
      (ts : Option Nat) (chain : CertificateChain),
      si.credential = .X509 chain →
      (∀ pk, p.validate_chain chain ts = .ok pk → pk ≠ si.signature_key →
        p.validate si ts = .error .SignatureKeyMismatch) ∧
      (∀ pk, p.validate_chain chain ts = .ok pk → pk = si.signature_key →
        p.validate si ts = .ok ()) ∧
      (∀ e, p.validate_chain chain ts = .error e →
        p.validate si ts = .error (.ChainValidationError e)) := by
  intro p si ts chain hcred
  refine ⟨?_, ?_, ?_⟩
  · intro pk hok hne
    unfold X509IdentityProvider.validate
    rw [hcred]
    simp only [credential_to_chain, Bind.bind, Except.bind]
    rw [hok]
    simp [hne]
  · intro pk hok heq
    unfold X509IdentityProvider.validate
    rw [hcred]
    simp only [credential_to_chain, Bind.bind, Except.bind]
    rw [hok]
    simp [heq]
  · intro e herr
    unfold X509IdentityProvider.validate
    rw [hcred]
    simp only [credential_to_chain, Bind.bind, Except.bind]
    rw [herr]

/-- Witness for C10: a validator returning key [1] mismatches an identity
whose signature key is [2], matches one whose key is [1], and a failing
validator reports a chain error. -/
theorem x509_validate_key_equality_witness :
    (X509IdentityProvider.mk fun _ _ => .ok [1]).validate
      (SigningIdentity.mk [2] (.X509 ([] : CertificateChain))) none =
        .error .SignatureKeyMismatch ∧
    (X509IdentityProvider.mk fun _ _ => .ok [1]).validate
      (SigningIdentity.mk [1] (.X509 ([] : CertificateChain))) none = .ok () ∧
    (X509IdentityProvider.mk fun _ _ => .error "bad chain").validate
      (SigningIdentity.mk [1] (.X509 ([] : CertificateChain))) none =
        .error (.ChainValidationError "bad chain") :=
  ⟨(x509_validate_key_equality (X509IdentityProvider.mk fun _ _ => .ok [1])
      (SigningIdentity.mk [2] (.X509 ([] : CertificateChain))) none [] rfl).1
      [1] rfl (by decide),
   (x509_validate_key_equality (X509IdentityProvider.mk fun _ _ => .ok [1])
      (SigningIdentity.mk [1] (.X509 ([] : CertificateChain))) none [] rfl).2.1
      [1] rfl rfl,
   (x509_validate_key_equality
      (X509IdentityProvider.mk fun _ _ => .error "bad chain")
      (SigningIdentity.mk [1] (.X509 ([] : CertificateChain))) none [] rfl).2.2
      "bad chain" rfl⟩

/-! ## Session (src/src/session.rs)

The `Group` protocol object is declared (`mod group`) but its implementation
is not under src/; its operations are modelled from the spec (§4.5 group
state machine, §7 error taxonomy). The `Session` wrapper below follows
session.rs. State-mutating operations return `(result, post-state)` pairs,
mirroring `&mut self` methods. -/

/-- `GroupError`, reduced to the variant the session claims branch on.
Modelled from the spec: the group signals `CantProcessMessageFromSelf` on an
echo of the member's own message. -/
inductive GroupError : Type where
  | CantProcessMessageFromSelf
  deriving DecidableEq, Repr

/-- `SessionError` (src/src/session.rs). -/
inductive SessionError : Type where
  | ProtocolError (e : GroupError)
  | Serialization
  | ExistingPendingCommit
  | PendingCommitNotFound
  | PendingCommitMismatch
  deriving DecidableEq, Repr

/-- Modelled from the spec: the content kind of a framed control message. -/
inductive MsgContentKind : Type where
  | CommitMsg
  | ProposalMsg
  | ApplicationMsg
  deriving DecidableEq, Repr

/-- Modelled from the spec: an `MLSMessage` reduced to the fields the
self-message check reads — the sender's leaf index, the epoch, and the
content kind. -/
structure MLSMessageS where
  sender : Nat
  epoch : Nat
  content : MsgContentKind
  deriving DecidableEq, Repr

/-- Wire tag of a message content kind. -/
def MsgContentKind.tag : MsgContentKind → Nat
  | .CommitMsg => 3
  | .ProposalMsg => 2
  | .ApplicationMsg => 1

/-- Modelled from the spec: serialization of the reduced `MLSMessage` —
content tag, u32 sender index, u64 epoch. -/
def MLSMessageS.tls_serialize (m : MLSMessageS) : List Nat :=
  [m.content.tag] ++ natToBytesBE 4 m.sender ++ natToBytesBE 8 m.epoch

/-- Modelled from the spec: deserialization of the reduced `MLSMessage`. -/
def MLSMessageS.tls_deserialize (bs : List Nat) : Option (MLSMessageS × List Nat) :=
  match deN 1 bs with
  | none => none
  | some (t, r1) =>
    match deN 4 r1 with
    | none => none
    | some (snd, r2) =>
      match deN 8 r2 with
      | none => none
      | some (ep, r3) =>
        if t = 3 then some (⟨snd, ep, .CommitMsg⟩, r3)
        else if t = 2 then some (⟨snd, ep, .ProposalMsg⟩, r3)
        else if t = 1 then some (⟨snd, ep, .ApplicationMsg⟩, r3)
        else none

/-- Modelled from the spec: the group state, reduced to the member's own
leaf index and the current epoch. -/
structure Group where
  self_index : Nat
  epoch : Nat
  deriving DecidableEq, Repr

/-- `StateUpdate`: summary of an applied commit (modelled from the spec). -/
structure StateUpdate where
  epoch : Nat
  deriving DecidableEq, Repr

/-- `ProcessedMessage` (group module, not under src/): what an incoming
message turned out to be. -/
inductive ProcessedMessage : Type where
  | Application (data : List Nat)
  | Commit (update : StateUpdate)
  | Proposal
  deriving DecidableEq, Repr

/-- Modelled from the spec: `Group::process_incoming_message` — a member
processing a commit or proposal it generated itself returns
`CantProcessMessageFromSelf` instead of advancing the epoch; a commit from
another member advances the epoch by one. -/
def Group.process_incoming_message (g : Group) (m : MLSMessageS) :
    Except GroupError (Group × ProcessedMessage) :=
  if m.sender = g.self_index then
    .error .CantProcessMessageFromSelf
  else
    match m.content with
    | .CommitMsg => .ok ({ g with epoch := g.epoch + 1 },
        .Commit { epoch := g.epoch + 1 })
    | .ProposalMsg => .ok (g, .Proposal)
    | .ApplicationMsg => .ok (g, .Application [])

/-- `CommitGeneration` (group module, not under src/): the pending commit's
plaintext, modelled from the spec. -/
structure CommitGeneration where
  plaintext : MLSMessageS
  deriving DecidableEq, Repr

/-- Modelled from the spec: `Group::commit_proposals` — builds a commit
plaintext authored by this member at the current epoch, without advancing
the group. -/
def Group.commit_proposals (g : Group) (proposal_count : Nat) :
    Except GroupError (CommitGeneration × Option Unit) :=
  .ok ({ plaintext := { sender := g.self_index, epoch := g.epoch,
                        content := .CommitMsg } }, none)

/-- Modelled from the spec: `Group::process_pending_commit` — applying the
member's own pending commit advances the epoch by one. -/
def Group.process_pending_commit (g : Group) (commit : CommitGeneration) :
    Except GroupError (Group × StateUpdate) :=
  .ok ({ g with epoch := g.epoch + 1 }, { epoch := g.epoch + 1 })

/-- `PendingCommit` (src/src/session.rs): the serialized packet and the
commit generation it came from. -/
structure PendingCommit where
  packet_data : List Nat
  commit : CommitGeneration
  deriving DecidableEq, Repr

/-- `CommitResult` (src/src/session.rs). -/
structure CommitResult where
  commit_packet : List Nat
  welcome_packet : Option (List Nat)
  deriving DecidableEq, Repr

/-- `Session` (src/src/session.rs), with the signing key kept opaque. -/
structure Session where
  signing_key : List Nat
  protocol : Group
  pending_commit : Option PendingCommit
  encrypt_controls : Bool
  deriving DecidableEq, Repr

/-- `Session::commit`: refuse with `ExistingPendingCommit` while a pending
commit exists (leaving the session untouched); otherwise build the commit,
serialize it, and store it as the pending commit. -/
def Session.commit (s : Session) (proposal_count : Nat) :
    Except SessionError CommitResult × Session :=
  if s.pending_commit.isSome then
    (.error .ExistingPendingCommit, s)
  else
    match s.protocol.commit_proposals proposal_count with
    | .error e => (.error (.ProtocolError e), s)
    | .ok (commit_data, welcome) =>
      let serialized_commit := commit_data.plaintext.tls_serialize
      (.ok { commit_packet := serialized_commit,
             welcome_packet := welcome.map fun _ => [] },
       { s with pending_commit := some { packet_data := serialized_commit,
                                         commit := commit_data } })

/-- `Session::process_incoming_message`: delegate to the group; when the
processed message was a commit, drop the now-stale pending commit; on error
the session is left unchanged. -/
def Session.process_incoming_message (s : Session) (m : MLSMessageS) :
    Except SessionError ProcessedMessage × Session :=
  match s.protocol.process_incoming_message m with
  | .error e => (.error (.ProtocolError e), s)
  | .ok (g, res) =>
    match res with
    | .Commit u => (.ok (.Commit u),
        { s with protocol := g, pending_commit := none })
    | other => (.ok other, { s with protocol := g })

/-- `Session::process_incoming_bytes`: deserialize, then process. -/
def Session.process_incoming_bytes (s : Session) (data : List Nat) :
    Except SessionError ProcessedMessage × Session :=
  match MLSMessageS.tls_deserialize data with
  | none => (.error .Serialization, s)
  | some (m, _) => s.process_incoming_message m

/-- `Session::apply_pending_commit`: take the pending commit (leaving none),
failing with `PendingCommitNotFound` when there is none, and apply it to the
group. -/
def Session.apply_pending_commit (s : Session) :
    Except SessionError StateUpdate × Session :=
  match s.pending_commit with
  | none => (.error .PendingCommitNotFound, s)
  | some pending =>
    match s.protocol.process_pending_commit pending.commit with
    | .error e => (.error (.ProtocolError e), { s with pending_commit := none })
    | .ok (g, update) =>
      (.ok update, { s with protocol := g, pending_commit := none })

theorem mlsMessageS_roundtrip (m : MLSMessageS) (rest : List Nat)
    (h1 : m.sender < 2 ^ 32) (h2 : m.epoch < 2 ^ 64) :
    MLSMessageS.tls_deserialize (m.tls_serialize ++ rest) = some (m, rest) := by
  obtain ⟨snd, ep, ct⟩ := m
  simp only at h1 h2
  have htag : [MsgContentKind.tag ct] = natToBytesBE 1 (MsgContentKind.tag ct) := by
    cases ct <;> rfl
  have d1 : deN 1 ([MsgContentKind.tag ct] ++
      (natToBytesBE 4 snd ++ (natToBytesBE 8 ep ++ rest))) =
      some (MsgContentKind.tag ct,
        natToBytesBE 4 snd ++ (natToBytesBE 8 ep ++ rest)) := by
    rw [htag]
    exact deN_natToBytesBE 1 _ _ (by cases ct <;> simp [MsgContentKind.tag])
  have d2 : deN 4 (natToBytesBE 4 snd ++ (natToBytesBE 8 ep ++ rest)) =
      some (snd, natToBytesBE 8 ep ++ rest) :=
    deN_natToBytesBE 4 _ _ (by norm_num at h1 ⊢; omega)
  have d3 : deN 8 (natToBytesBE 8 ep ++ rest) = some (ep, rest) :=
    deN_natToBytesBE 8 _ _ (by norm_num at h2 ⊢; omega)
  unfold MLSMessageS.tls_serialize MLSMessageS.tls_deserialize
  simp only [List.append_assoc]
  rw [d1]
  simp only []
  rw [d2]
  simp only []
  rw [d3]
  cases ct <;> simp [MsgContentKind.tag]

/-- C1: a session holding the pending commit it just generated cannot
process its own serialized commit — `process_incoming_bytes` fails with
`ProtocolError(CantProcessMessageFromSelf)` and leaves the session (and its
stored pending commit) in place — and the group advances only through a
subsequent `apply_pending_commit`, which succeeds and bumps the epoch. -/
theorem session_self_commit_rejection (s : Session) (n : Nat)
    (hpend : s.pending_commit = none)
    (hidx : s.protocol.self_index < 2 ^ 32)
    (hep : s.protocol.epoch < 2 ^ 64) :
    ∃ cr s1, s.commit n = (.ok cr, s1) ∧
      s1.process_incoming_bytes cr.commit_packet =
        (.error (.ProtocolError .CantProcessMessageFromSelf), s1) ∧
      s1.pending_commit ≠ none ∧
      ∃ su s2, s1.apply_pending_commit = (.ok su, s2) ∧
        s2.protocol.epoch = s.protocol.epoch + 1 ∧ s2.pending_commit = none := by
  set msg : MLSMessageS :=
    { sender := s.protocol.self_index, epoch := s.protocol.epoch,
      content := .CommitMsg } with hmsg
  have hde : MLSMessageS.tls_deserialize msg.tls_serialize = some (msg, []) := by
    have := mlsMessageS_roundtrip msg [] hidx hep
    simpa using this
  set s1 : Session := { s with pending_commit := some ⟨msg.tls_serialize, ⟨msg⟩⟩ } with hs1
  set s2 : Session := { s1 with protocol := ⟨s.protocol.self_index, s.protocol.epoch + 1⟩, pending_commit := none } with hs2
  refine ⟨⟨msg.tls_serialize, none⟩, s1, ?_, ?_, ?_, ?_⟩
  · simp [Session.commit, hpend, Group.commit_proposals, hmsg, hs1]
  · simp [Session.process_incoming_bytes, hde,
      Session.process_incoming_message, Group.process_incoming_message,
      hmsg, hs1]
  · simp [hs1]
  · refine ⟨⟨s.protocol.epoch + 1⟩, s2, ?_, by simp [hs2], by simp [hs2]⟩
    simp [Session.apply_pending_commit, Group.process_pending_commit, hs1, hs2]

/-- Witness for C1 at a fresh session at epoch 0. -/
theorem session_self_commit_rejection_witness :
    ∃ cr s1,
      Session.commit ⟨[], ⟨0, 0⟩, none, false⟩ 0 = (.ok cr, s1) ∧
      s1.process_incoming_bytes cr.commit_packet =
        (.error (.ProtocolError .CantProcessMessageFromSelf), s1) ∧
      s1.pending_commit ≠ none ∧
      ∃ su s2, s1.apply_pending_commit = (.ok su, s2) ∧
        s2.protocol.epoch = (Group.mk 0 0).epoch + 1 ∧
        s2.pending_commit = none :=
  session_self_commit_rejection ⟨[], ⟨0, 0⟩, none, false⟩ 0 rfl
    (by norm_num) (by norm_num)

/-- C7: calling `commit` while a pending commit exists fails with
`ExistingPendingCommit` and leaves the session — including the stored
pending commit — unchanged; when no commit is pending, a successful commit
stores the newly produced commit packet as the pending commit without
advancing the group. -/
theorem session_commit_pending_guard :
    (∀ (s : Session) (n : Nat), s.pending_commit.isSome = true →
      s.commit n = (.error .ExistingPendingCommit, s)) ∧
    (∀ (s : Session) (n : Nat), s.pending_commit = none →
      ∃ cr s', s.commit n = (.ok cr, s') ∧
        (∃ cg, s'.pending_commit =
          some { packet_data := cr.commit_packet, commit := cg }) ∧
        s'.protocol = s.protocol) := by
  constructor
  · intro s n hsome
    unfold Session.commit
    rw [if_pos hsome]
  · intro s n hnone
    set msg : MLSMessageS :=
      MLSMessageS.mk s.protocol.self_index s.protocol.epoch .CommitMsg with hmsg
    set s' : Session := { s with pending_commit := some ⟨msg.tls_serialize, ⟨msg⟩⟩ } with hs
    refine ⟨⟨msg.tls_serialize, none⟩, s', ?_, ⟨⟨msg⟩, by simp [hs]⟩, by simp [hs]⟩
    simp [Session.commit, hnone, Group.commit_proposals, hmsg, hs]

/-- Witness for C7: a session with a stored pending commit refuses to
commit again and is returned unchanged; a fresh one commits and stores the
result as pending. -/
theorem session_commit_pending_guard_witness :
    Session.commit ⟨[], ⟨0, 0⟩,
        some ⟨[], ⟨⟨0, 0, .CommitMsg⟩⟩⟩, false⟩ 0 =
      (.error .ExistingPendingCommit,
        ⟨[], ⟨0, 0⟩, some ⟨[], ⟨⟨0, 0, .CommitMsg⟩⟩⟩, false⟩) ∧
    ∃ cr s', Session.commit ⟨[], ⟨0, 0⟩, none, false⟩ 0 = (.ok cr, s') ∧
      (∃ cg, s'.pending_commit =
        some { packet_data := cr.commit_packet, commit := cg }) ∧
      s'.protocol = (Session.mk [] ⟨0, 0⟩ none false).protocol :=
  ⟨session_commit_pending_guard.1 ⟨[], ⟨0, 0⟩,
      some ⟨[], ⟨⟨0, 0, .CommitMsg⟩⟩⟩, false⟩ 0 rfl,
   session_commit_pending_guard.2 ⟨[], ⟨0, 0⟩, none, false⟩ 0 rfl⟩

end MlsRs
